import Mathlib

/-!
Verification of the delimited-record-block parser of
`ML_16_collaborative_filtering_recommender.ipynb`.

The source loop being embedded (the only non-library logic of the repo):

  X = []
  y = []
  classes = {'normal':0, 'collision':1, 'obstruction':2, 'fr_collision':3}
  for i in range(len(lines) - 1):
      line = lines[i].strip()
      if line in classes.keys():
          features = [int(x) for x in lines[i+1].strip().split('\t')]
          X.append(features)
          y.append(classes[line])

Python semantics modelled below: `str.strip()` removes leading and trailing
whitespace; `str.split('\t')` splits on every tab, keeping empty pieces;
`int(x)` accepts an optionally sign-prefixed nonempty run of decimal digits
(surrounded by optional whitespace) and raises `ValueError` otherwise, which
aborts the whole loop.  An aborted loop is modelled as `none`.
-/

/-- Whitespace characters removed by Python `str.strip()`. -/
def isPySpace (c : Char) : Bool :=
  c = ' ' || c = '\t' || c = '\n' || c = '\r' || c = '\x0b' || c = '\x0c'

/-- Python `str.strip()`: drop leading and trailing whitespace. -/
def pyStrip (s : String) : String :=
  String.mk (((s.toList.dropWhile isPySpace).reverse.dropWhile isPySpace).reverse)

/-- Helper for `pySplitTab`: accumulate the current piece (reversed). -/
def splitTabAux : List Char → List Char → List String
  | [], acc => [String.mk acc.reverse]
  | c :: cs, acc =>
    if c = '\t' then String.mk acc.reverse :: splitTabAux cs []
    else splitTabAux cs (c :: acc)

/-- Python `str.split('\t')`: split on every tab, keeping empty pieces
(`"".split('\t') == ['']`). -/
def pySplitTab (s : String) : List String :=
  splitTabAux s.toList []

/-- Read a nonempty all-digit character list as a natural number
(most significant digit first); `none` on any non-digit. -/
def parseDigits : List Char → Nat → Option Nat
  | [], n => some n
  | c :: cs, n =>
    if c.isDigit then parseDigits cs (n * 10 + (c.toNat - 48)) else none

/-- Python `int(x)` on a string: optional surrounding whitespace, optional
sign, then a nonempty digit run; `none` models `ValueError`. -/
def pyInt? (s : String) : Option Int :=
  match (pyStrip s).toList with
  | [] => none
  | '-' :: [] => none
  | '+' :: [] => none
  | '-' :: cs => (parseDigits cs 0).map (fun n => -(n : Int))
  | '+' :: cs => (parseDigits cs 0).map (fun n => (n : Int))
  | cs => (parseDigits cs 0).map (fun n => (n : Int))

/-- The fixed dictionary of the source:
`classes = {'normal':0, 'collision':1, 'obstruction':2, 'fr_collision':3}`.
It is a hard-coded constant, built before the scan, never from the input. -/
def classes : List (String × Nat) :=
  [("normal", 0), ("collision", 1), ("obstruction", 2), ("fr_collision", 3)]

/-- `line in classes.keys()`: the (already stripped) line equals one of the
four label strings. -/
def isLabel (line : String) : Bool :=
  classes.any (fun p => p.1 == line)

/-- `classes[line]`: the integer code of a label string (only ever read by
the source when `line in classes.keys()` holds; the default is unreachable
there). -/
def labelCode (line : String) : Nat :=
  ((classes.find? (fun p => p.1 == line)).map Prod.snd).getD 0

/-- `[int(x) for x in s.strip().split('\t')]`: `none` if any token raises. -/
def parseFeatures (s : String) : Option (List Int) :=
  (pySplitTab (pyStrip s)).mapM pyInt?

/-- The loop `for i in range(len(lines) - 1)` as a recursion over adjacent
pairs of lines, carrying the accumulated `(X, y)` state; `none` models a
`ValueError` escaping the loop.  The last line is never examined as a
potential label (the range stops at `len(lines) - 2`). -/
def runFrom (acc : List (List Int) × List Nat) :
    List String → Option (List (List Int) × List Nat)
  | l₀ :: l₁ :: rest =>
    if isLabel (pyStrip l₀) then
      match parseFeatures l₁ with
      | none => none
      | some fs =>
          runFrom (acc.1 ++ [fs], acc.2 ++ [labelCode (pyStrip l₀)]) (l₁ :: rest)
    else runFrom acc (l₁ :: rest)
  | _ => some acc

/-- The whole source cell: start from fresh `X = []`, `y = []` and run the
loop over the lines. -/
def parse (lines : List String) : Option (List (List Int) × List Nat) :=
  runFrom ([], []) lines

/-- The worked example of the spec (tab-delimited, two labelled blocks). -/
def exSpec : List String :=
  ["normal", "-1\t-1\t63\t-3\t-1\t0", "collision", "1\t2\t3\t4\t5\t6"]

/-- The space-delimited example used for the first-occurrence-order
property of the spec. -/
def exFirstOccurrence : List String :=
  ["normal", "0 0 0", "collision", "1 1 1", "normal", "2 2 2"]

/-- A label line directly followed by another label line. -/
def exLabelLabel : List String :=
  ["normal", "collision", "1\t2\t3\t4\t5\t6"]

/-- An orphaned data line (not preceded by a label line). -/
def exOrphan : List String :=
  ["7\t8", "normal", "1\t2"]

/-- A data line with five fields where the file format has six. -/
def exFiveFields : List String :=
  ["normal", "1\t2\t3\t4\t5"]

/-- A data line with seven fields where the file format has six. -/
def exSevenFields : List String :=
  ["normal", "1\t2\t3\t4\t5\t6\t7"]

/-- A data line whose tokens are floating-point numerals. -/
def exFloats : List String :=
  ["normal", "1.5\t2.5\t3.5\t4.5\t5.5\t6.5"]

/-- The same block with integer tokens. -/
def exInts : List String :=
  ["collision", "1\t2\t3\t4\t5\t6"]

/-- A trailing label line preceded by another label line. -/
def exTrailingAfterLabel : List String :=
  ["normal", "normal"]

/-- A data line with a malformed numeric token in second position. -/
def exBadToken : List String :=
  ["normal", "1\tabc\t3\t4\t5\t6"]

/-- A single label line and nothing else. -/
def exSingleLabel : List String :=
  ["normal"]

/-- One well-formed block: a label line then a data line. -/
def exOrphanTail : List String :=
  ["normal", "1\t2"]

/-- An input is well formed when every line examined as a label (all but the
last) that matches a class name is immediately followed by a line whose every
tab-separated token parses as an integer. -/
def wellFormed : List String → Bool
  | l₀ :: l₁ :: rest =>
    (!isLabel (pyStrip l₀) || (parseFeatures l₁).isSome) && wellFormed (l₁ :: rest)
  | _ => true

/-- The number of label lines (among the examined positions, i.e. all but the
last line) immediately followed by a syntactically valid data line. -/
def countValid : List String → Nat
  | l₀ :: l₁ :: rest =>
    (if isLabel (pyStrip l₀) && (parseFeatures l₁).isSome then 1 else 0)
      + countValid (l₁ :: rest)
  | _ => 0

/-- Modelled from the spec: for every label line, the single data line
immediately following it is parsed into a numeric field vector and paired
with the label's integer code, in scan order; label lines not immediately
followed by a parseable data line are skipped. -/
def specRecords : List String → List (List Int × Nat)
  | l₀ :: l₁ :: rest =>
    if isLabel (pyStrip l₀) then
      match parseFeatures l₁ with
      | some fs => (fs, labelCode (pyStrip l₀)) :: specRecords (l₁ :: rest)
      | none => specRecords (l₁ :: rest)
    else specRecords (l₁ :: rest)
  | _ => []

/-- The loop only ever appends to the state it is given: its output is the
initial `(X, y)` followed by the records it extracts from the lines alone.
In particular the extracted records do not depend on the initial state. -/
theorem runFrom_shift (lines : List String) :
    ∀ acc, runFrom acc lines =
      (runFrom ([], []) lines).map (fun p => (acc.1 ++ p.1, acc.2 ++ p.2)) := by
  induction lines with
  | nil => intro acc; simp [runFrom]
  | cons l₀ tail ih =>
    cases tail with
    | nil => intro acc; simp [runFrom]
    | cons l₁ rest =>
      intro acc
      by_cases hl : isLabel (pyStrip l₀)
      · cases hf : parseFeatures l₁ with
        | none => simp [runFrom, hl, hf]
        | some fs =>
          simp only [runFrom, hl, hf, if_true]
          simp only [List.nil_append]
          rw [ih, ih ([fs], [labelCode (pyStrip l₀)])]
          cases runFrom ([], []) (l₁ :: rest) with
          | none => rfl
          | some p => simp
      · simp only [runFrom, hl, if_false]
        rw [ih, ih ([], [])]
        cases runFrom ([], []) (l₁ :: rest) with
        | none => rfl
        | some p => simp

/-- On a well-formed input the loop completes and returns exactly the
records described by the spec, feature vectors in the first component and
label codes in the second, in scan order. -/
theorem parse_eq_specRecords (lines : List String) (h : wellFormed lines = true) :
    parse lines =
      some ((specRecords lines).map Prod.fst, (specRecords lines).map Prod.snd) := by
  induction lines with
  | nil => simp [parse, runFrom, specRecords]
  | cons l₀ tail ih =>
    cases tail with
    | nil => simp [parse, runFrom, specRecords]
    | cons l₁ rest =>
      by_cases hl : isLabel (pyStrip l₀)
      · simp only [wellFormed, hl, Bool.not_true, Bool.false_or,
          Bool.and_eq_true] at h
        obtain ⟨hf, hwf⟩ := h
        cases hfs : parseFeatures l₁ with
        | none => rw [hfs] at hf; simp at hf
        | some fs =>
          have hrec := ih hwf
          simp only [parse] at hrec ⊢
          simp only [runFrom, specRecords, hl, hfs, if_true, List.nil_append]
          rw [runFrom_shift, hrec]
          simp
      · simp only [wellFormed, hl, Bool.not_false, Bool.true_or,
          Bool.true_and] at h
        have hrec := ih h
        simp only [parse] at hrec ⊢
        simp only [runFrom, specRecords, hl, if_false]
        exact hrec

/-- The spec-side record list has exactly one entry per label line that is
immediately followed by a parseable data line. -/
theorem specRecords_length (lines : List String) :
    (specRecords lines).length = countValid lines := by
  induction lines with
  | nil => rfl
  | cons l₀ tail ih =>
    cases tail with
    | nil => rfl
    | cons l₁ rest =>
      by_cases hl : isLabel (pyStrip l₀)
      · cases hfs : parseFeatures l₁ with
        | none => simp [specRecords, countValid, hl, hfs, ih]
        | some fs => simp [specRecords, countValid, hl, hfs, ih, Nat.add_comm]
      · simp [specRecords, countValid, hl, ih]

/-- Any label string recognized by `isLabel` has its code in the fixed
`classes` dictionary. -/
theorem labelCode_mem (s : String) (h : isLabel s = true) :
    ∃ p ∈ classes, p.2 = labelCode s := by
  simp only [isLabel, List.any_eq_true, beq_iff_eq] at h
  obtain ⟨p, hp, hps⟩ := h
  subst hps
  fin_cases hp <;> decide

/-- C1: on every well-formed input the parse succeeds; each label line is
paired, in scan order, with the feature vector parsed from the data line
immediately following it (the list of emitted records equals `specRecords`),
and the number of emitted Records equals the number of label lines
immediately followed by a syntactically valid data line. -/
theorem parse_records_c1 (lines : List String) (h : wellFormed lines = true) :
    parse lines =
        some ((specRecords lines).map Prod.fst, (specRecords lines).map Prod.snd)
      ∧ ((specRecords lines).map Prod.fst).length = countValid lines := by
  refine ⟨parse_eq_specRecords lines h, ?_⟩
  simp [specRecords_length]

theorem parse_records_c1_witness :
    wellFormed exSpec = true
      ∧ (parse exSpec =
            some ((specRecords exSpec).map Prod.fst, (specRecords exSpec).map Prod.snd)
          ∧ ((specRecords exSpec).map Prod.fst).length = countValid exSpec) :=
  ⟨by decide, parse_records_c1 exSpec (by decide)⟩

/-- C2 counterexample: parsing the spec example yields the stated Dataset,
but the label dictionary of the code is the fixed four-entry `classes`
constant, which also maps "obstruction" to 2 — so the run does not yield
exactly the dictionary \x7bnormal: 0, collision: 1\x7d. -/
theorem spec_example_dict_cx :
    parse exSpec = some ([[-1, -1, 63, -3, -1, 0], [1, 2, 3, 4, 5, 6]], [0, 1])
      ∧ isLabel ("obstruction") = true ∧ labelCode ("obstruction") = 2 :=
  ⟨by decide, by decide, by decide⟩

/-- C2 amended: the spec example yields exactly the stated Dataset; the
label dictionary, however, is the hard-coded constant
\x7bnormal: 0, collision: 1, obstruction: 2, fr_collision: 3\x7d, built before the
scan and independent of the input, whose entries for the labels that occur
in this input are normal: 0 and collision: 1. -/
theorem spec_example_amended_c2 :
    parse exSpec = some ([[-1, -1, 63, -3, -1, 0], [1, 2, 3, 4, 5, 6]], [0, 1])
      ∧ classes =
          [("normal", 0), ("collision", 1), ("obstruction", 2), ("fr_collision", 3)]
      ∧ labelCode ("normal") = 0 ∧ labelCode ("collision") = 1 :=
  ⟨by decide, rfl, by decide, by decide⟩

/-- C3 counterexample: the space-separated example does not yield three
Records — its data lines are split on tabs only, so `int("0 0 0")` raises
and the whole parse fails. -/
theorem first_occurrence_cx : parse exFirstOccurrence = none := by decide

/-- C3 amended: label codes are taken from the fixed pre-built dictionary
and are not assigned by first occurrence — an input whose first label line
is "collision" gets code 1, not 0 — and the space-separated example fails
to parse entirely. -/
theorem fixed_codes_amended_c3 :
    parse exInts = some ([[1, 2, 3, 4, 5, 6]], [1])
      ∧ parse exFirstOccurrence = none :=
  ⟨by decide, by decide⟩

/-- C4 counterexample: a label line directly followed by another label line
is not skipped — `int("collision")` raises and the whole parse fails. -/
theorem label_label_cx : parse exLabelLabel = none := by decide

/-- C4 amended: a line that is not a label line is skipped without effect
(in particular orphaned data lines), but a label line followed by an
unparseable line — such as another label line — causes the whole parse to
fail rather than being skipped. -/
theorem skip_amended_c4 :
    (∀ (l₀ l₁ : String) (rest : List String),
        isLabel (pyStrip l₀) = true → parseFeatures l₁ = none →
          parse (l₀ :: l₁ :: rest) = none)
      ∧ (∀ (l₀ l₁ : String) (rest : List String),
          isLabel (pyStrip l₀) = false →
            parse (l₀ :: l₁ :: rest) = parse (l₁ :: rest)) := by
  constructor
  · intro l₀ l₁ rest hl hf
    simp [parse, runFrom, hl, hf]
  · intro l₀ l₁ rest hl
    simp [parse, runFrom, hl]

theorem skip_amended_c4_witness :
    parse exLabelLabel = none ∧ parse exOrphan = parse exOrphanTail :=
  ⟨skip_amended_c4.1 ("normal") ("collision") (["1\t2\t3\t4\t5\t6"])
      (by decide) (by decide),
   skip_amended_c4.2 ("7\t8") ("normal") (["1\t2"]) (by decide)⟩

/-- C5 counterexample: a five-field data line (six expected) following a
label line is appended to the Dataset as a Record — it is not rejected. -/
theorem field_count_cx :
    parse exFiveFields = some ([[1, 2, 3, 4, 5]], [0]) := by decide

/-- C5 amended: there is no field-count policy at all — a following data
line whose tokens all parse as integers is appended with whatever number of
fields it has (five or seven where the file format has six); only a
non-numeric token rejects, and then by failing the whole parse with no line
reference. -/
theorem no_field_count_check_c5 :
    parse exFiveFields = some ([[1, 2, 3, 4, 5]], [0])
      ∧ parse exSevenFields = some ([[1, 2, 3, 4, 5, 6, 7]], [0]) :=
  ⟨by decide, by decide⟩

/-- C6 counterexample: a data line of floating-point tokens such as "1.5"
is not emitted as a Record — `int("1.5")` raises and the parse fails. -/
theorem float_fields_cx : parse exFloats = none := by decide

/-- C6 amended: only fields parseable as integers are accepted; a data line
of floating-point numerals fails the whole parse, while the same block with
integer tokens is emitted as a Record. -/
theorem int_fields_only_c6 :
    pyInt? ("1.5") = none ∧ pyInt? ("-3") = some (-3)
      ∧ parse exFloats = none ∧ parse exInts = some ([[1, 2, 3, 4, 5, 6]], [1]) :=
  ⟨by decide, by decide, by decide, by decide⟩

/-- C7: the parse is a pure function of the input lines — two runs on the
same lines give identical results — and the loop only appends to whatever
initial state it is given: its contribution is computed from the lines
alone, independent of any state left by a previous run. -/
theorem parse_pure_c7 (lines : List String)
    (X₀ : List (List Int)) (y₀ : List Nat) :
    parse lines = parse lines
      ∧ runFrom (X₀, y₀) lines =
          (parse lines).map (fun p => (X₀ ++ p.1, y₀ ++ p.2)) :=
  ⟨rfl, runFrom_shift lines (X₀, y₀)⟩

/-- C8 counterexample: in ["normal", "normal"] the final line is a label
line with no following data; removing it yields the empty Dataset, but with
it present the parse fails instead of yielding the same Dataset. -/
theorem trailing_label_cx :
    parse exTrailingAfterLabel = none ∧ parse exSingleLabel = some ([], []) :=
  ⟨by decide, by decide⟩

/-- C8 amended: a trailing label line contributes zero Records and leaves
the result unchanged, provided the line before it is not itself a label
line (when it is, the parse fails instead of discarding the label). -/
theorem trailing_label_amended_c8 (lines : List String) (l : String)
    (_hl : isLabel (pyStrip l) = true)
    (hlast : isLabel (pyStrip (lines.getLastD ("x"))) = false) :
    parse (lines ++ [l]) = parse lines := by
  induction lines with
  | nil => simp [parse, runFrom]
  | cons a tail ih =>
    cases tail with
    | nil =>
      simp only [List.getLastD_cons, List.getLastD_nil] at hlast
      simp [parse, runFrom, hlast]
    | cons b rest =>
      have hlast2 : isLabel (pyStrip ((b :: rest).getLastD ("x"))) = false := by
        simp only [List.getLastD_cons] at hlast ⊢
        exact hlast
      have hmain := ih hlast2
      simp only [parse] at hmain ⊢
      simp only [List.cons_append] at hmain ⊢
      by_cases ha : isLabel (pyStrip a)
      · cases hfs : parseFeatures b with
        | none => simp [runFrom, ha, hfs]
        | some fs =>
          simp only [runFrom, ha, hfs, if_true, List.nil_append]
          rw [runFrom_shift, runFrom_shift (b :: rest)]
          rw [hmain]
      · simp only [runFrom, ha, if_false]
        exact hmain

theorem trailing_label_amended_c8_witness :
    isLabel (pyStrip ("collision")) = true
      ∧ parse (exOrphanTail ++ [("collision")]) = parse exOrphanTail :=
  ⟨by decide, trailing_label_amended_c8 exOrphanTail ("collision") (by decide) (by decide)⟩

/-- C9: a malformed numeric token is never replaced by a default value — if
any line examined as data (one following a label line) has a token that does
not parse as an integer, the whole parse fails, so no Record containing a
substituted value is ever emitted. -/
theorem bad_token_fails_c9 (lines : List String) (i : Nat)
    (hb : i + 1 < lines.length)
    (hl : isLabel (pyStrip (lines.getD i (""))) = true)
    (hf : parseFeatures (lines.getD (i + 1) ("")) = none) :
    parse lines = none := by
  revert hb hl hf
  induction lines generalizing i with
  | nil => intro hb hl hf; simp at hb
  | cons a tail ih =>
    cases tail with
    | nil =>
      intro hb hl hf
      simp at hb
    | cons b rest =>
      intro hb hl hf
      cases i with
      | zero =>
        simp only [List.getD_cons_zero, List.getD_cons_succ] at hl hf
        simp [parse, runFrom, hl, hf]
      | succ j =>
        simp only [List.getD_cons_succ] at hl hf
        have hb2 : j + 1 < (b :: rest).length := by
          simp only [List.length_cons] at hb ⊢
          omega
        have hmain := ih j hb2 hl hf
        simp only [parse] at hmain ⊢
        by_cases ha : isLabel (pyStrip a)
        · cases hfs : parseFeatures b with
          | none => simp [runFrom, ha, hfs]
          | some fs =>
            simp only [runFrom, ha, hfs, if_true, List.nil_append]
            rw [runFrom_shift, hmain]
            rfl
        · simp only [runFrom, ha, if_false]
          exact hmain

theorem bad_token_fails_c9_witness :
    isLabel (pyStrip (exBadToken.getD 0 (""))) = true ∧ parse exBadToken = none :=
  ⟨by decide, bad_token_fails_c9 exBadToken 0 (by decide) (by decide) (by decide)⟩

/-- C10: whenever the loop completes from a state with as many feature
vectors as label codes, all codes drawn from the fixed `classes` mapping,
the final state again has equally many feature vectors and label codes, and
every emitted code is a value of `classes` (hence one of 0, 1, 2, 3); in
particular this holds for the completed parse, which starts from two empty
lists. -/
theorem balanced_codes_c10 (lines : List String)
    (acc r : List (List Int) × List Nat)
    (hr : runFrom acc lines = some r)
    (hlen : acc.1.length = acc.2.length)
    (hcd : ∀ c ∈ acc.2, ∃ p ∈ classes, p.2 = c) :
    r.1.length = r.2.length ∧ ∀ c ∈ r.2, ∃ p ∈ classes, p.2 = c := by
  revert hr hlen hcd
  induction lines generalizing acc with
  | nil =>
    intro hr hlen hcd
    simp only [runFrom, Option.some.injEq] at hr
    subst hr
    exact ⟨hlen, hcd⟩
  | cons a tail ih =>
    cases tail with
    | nil =>
      intro hr hlen hcd
      simp only [runFrom, Option.some.injEq] at hr
      subst hr
      exact ⟨hlen, hcd⟩
    | cons b rest =>
      intro hr hlen hcd
      by_cases ha : isLabel (pyStrip a)
      · cases hfs : parseFeatures b with
        | none => simp [runFrom, ha, hfs] at hr
        | some fs =>
          simp only [runFrom, ha, hfs, if_true] at hr
          refine ih _ hr ?_ ?_
          · simp [hlen]
          · intro c hc
            simp only [List.mem_append, List.mem_singleton] at hc
            rcases hc with hc | hc
            · exact hcd c hc
            · subst hc
              exact labelCode_mem _ ha
      · simp only [runFrom, ha, if_false] at hr
        exact ih _ hr hlen hcd

theorem balanced_codes_c10_witness :
    ([[-1, -1, 63, -3, -1, 0], [1, 2, 3, 4, 5, 6]] : List (List Int)).length
        = ([0, 1] : List Nat).length
      ∧ ∀ c ∈ ([0, 1] : List Nat), ∃ p ∈ classes, p.2 = c :=
  balanced_codes_c10 exSpec ([], [])
    ([[-1, -1, 63, -3, -1, 0], [1, 2, 3, 4, 5, 6]], [0, 1])
    (by decide) (by decide) (by decide)
